import Mathlib

/-!
Verification of the transcode supervisor (`src/main.py`) against its specification.

The development shallowly embeds the parts of the program the claims are about:

* the skip-tracking SQLite table (`skipped_transcodes`) as an association list keyed
  by path, with the exact upsert / point-delete semantics of the SQL statements;
* the filesystem, as seen through `Path.stat` / `Path.exists` / `Path.unlink`, as an
  association list from paths to `{st_size, st_mtime_ns}` stat results;
* `ffprobe` (`probe_subtitle_streams`) as an oracle returning either a tool failure
  (`CalledProcessError`, raised because the call uses `check=True`) or a list of
  subtitle stream descriptors;
* the disposition resolver `should_skip_due_to_text_subtitles`, the scanner
  `get_all_files`, the cycle filter `remove_files_if_procesed`, the cleanup helpers
  `delete_transcode` / `cleanup_bad_transcodes`, the error handling of
  `process_file`, the signal handler `handle_shutdown`, and the child-process
  polling loop of `start_ffmpeg_process`.

Machine-level effects (actual signal delivery, SQLite I/O) are represented by the
explicit state each function reads and writes, mirroring the Python control flow
branch by branch.
-/

set_option autoImplicit false

/-! ### Constants from `main.py` -/

/-- `ENDING = " - Transcoded"`: marker suffix of produced outputs. -/
def ENDING : String := " - Transcoded"

/-- `ENDING_ORG = " - Original"`: suffix stripped to obtain the canonical name. -/
def ENDING_ORG : String := " - Original"

/-- `TARGET_FROMAT = "mkv"` (sic): extension of produced outputs. -/
def TARGET_FROMAT : String := "mkv"

/-- `ALLOWED_EXTENSIONS = ["mp4", "mkv"]`. -/
def ALLOWED_EXTENSIONS : List String := ["mp4", "mkv"]

/-- `DISALLOWED_ENDINGS = [ENDING]`. -/
def DISALLOWED_ENDINGS : List String := [ENDING]

/-- `SKIP_REASON_TEXT = "text_subtitles_present"`. -/
def SKIP_REASON_TEXT : String := "text_subtitles_present"

/-- `TEXT_BASED_SUBTITLE_CODECS` set from `main.py`. -/
def TEXT_BASED_SUBTITLE_CODECS : List String :=
  ["subrip", "srt", "webvtt", "ass", "ssa", "text"]

/-! ### Paths and filesystem -/

/-- A filesystem path, decomposed the way `pathlib.Path` is used by the program:
`dir` is `path.parent`, `stem` is `path.stem`, `ext` the extension (without dot). -/
structure MPath where
  dir : String
  stem : String
  ext : String
  deriving DecidableEq, Repr

/-- A `stat` result: the two fields `file_signature` reads (`st_size`, `st_mtime_ns`). -/
structure FileSig where
  size : Int
  mtime_ns : Int
  deriving DecidableEq, Repr

/-- The filesystem as an association list from paths to stat data. -/
abbrev FS := List (MPath × FileSig)

/-- `path.stat()`: `none` models `FileNotFoundError`. -/
def FS.stat : FS → MPath → Option FileSig
  | [], _ => none
  | (k, s) :: rest, p => if k = p then some s else FS.stat rest p

/-- `path.exists()`. -/
def FS.exists (fs : FS) (p : MPath) : Bool :=
  (FS.stat fs p).isSome

/-- `path.unlink()`: remove the entry at `p`. -/
def FS.unlink : FS → MPath → FS
  | [], _ => []
  | (k, s) :: rest, p => if k = p then FS.unlink rest p else (k, s) :: FS.unlink rest p

/-- Python `str.endswith` (list-based, equivalent to `String.endsWith`). -/
def ends_with (s post : String) : Bool :=
  post.data.isSuffixOf s.data

/-- Python `str.lower` on the ASCII codec names the program compares (list-based,
character-wise lowering). -/
def lower_string (s : String) : String :=
  String.mk (s.data.map Char.toLower)

/-- Python `str.removesuffix`. -/
def removesuffix (s suffix : String) : String :=
  if (suffix != "") && ends_with s suffix then
    String.mk (s.data.take (s.data.length - suffix.data.length))
  else s

/-- `name = file_path.stem.removesuffix(ENDING_ORG)`: the canonical name used to
derive the output path (and, per the spec's glossary, the file's identity). -/
def canonical_name (stem : String) : String :=
  removesuffix stem ENDING_ORG

/-- `processed_path = dir_name / f"{name}{ENDING}.{TARGET_FROMAT}"`: the derived
output artifact path for a source file. -/
def output_path (p : MPath) : MPath :=
  ⟨p.dir, canonical_name p.stem ++ ENDING, TARGET_FROMAT⟩

/-! ### The skip store (`skipped_transcodes` table) -/

/-- A JSON-ish value stored inside the metadata object: the program only ever stores
integers (`size`, `mtime_ns`) and a list of strings (`codecs`). -/
inductive MetaVal where
  | int (n : Int)
  | strList (l : List String)
  deriving DecidableEq, Repr

/-- A parsed JSON metadata object, as a key-value list. -/
abbrev Metadata := List (String × MetaVal)

/-- Python `dict.get` on a metadata object (first binding wins). -/
def Metadata.get : Metadata → String → Option MetaVal
  | [], _ => none
  | (k, v) :: rest, key => if k = key then some v else Metadata.get rest key

/-- The raw `metadata` column of a row: `empty` models a NULL/empty string column,
`invalid` a non-empty string that fails JSON parsing (`json.JSONDecodeError`),
`valid m` a well-formed JSON object. -/
inductive StoredMeta where
  | empty
  | invalid
  | valid (m : Metadata)
  deriving DecidableEq, Repr

/-- A row of `skipped_transcodes` (the `created_at` column is never read back). -/
structure SkipRow where
  reason : String
  metadata : StoredMeta
  deriving DecidableEq, Repr

/-- The table, keyed by `file_path` (primary key). -/
abbrev SkipStore := List (MPath × SkipRow)

/-- The `SELECT reason, metadata ... WHERE file_path = ?` lookup. -/
def lookupRow : SkipStore → MPath → Option SkipRow
  | [], _ => none
  | (k, r) :: rest, p => if k = p then some r else lookupRow rest p

/-- `delete_skip_record`: `DELETE FROM skipped_transcodes WHERE file_path = ?`. -/
def delete_skip_record : SkipStore → MPath → SkipStore
  | [], _ => []
  | (k, r) :: rest, p =>
    if k = p then delete_skip_record rest p else (k, r) :: delete_skip_record rest p

/-- `record_skipped_file`: `INSERT ... ON CONFLICT(file_path) DO UPDATE` (upsert).
`json.dumps` of a dict always produces valid non-empty JSON, hence `.valid`. -/
def record_skipped_file (store : SkipStore) (p : MPath) (reason : String) (m : Metadata) :
    SkipStore :=
  (p, ⟨reason, StoredMeta.valid m⟩) :: delete_skip_record store p

/-- The in-memory record produced by `load_skip_record`: `metadata` is parsed from the
column, with NULL/empty and unparseable text both collapsing to the empty dict. -/
structure LoadedRecord where
  reason : String
  metadata : Metadata
  deriving DecidableEq, Repr

/-- `metadata = json.loads(row[1]) if row[1] else {}` with `JSONDecodeError → {}`. -/
def parse_metadata : StoredMeta → Metadata
  | StoredMeta.empty => []
  | StoredMeta.invalid => []
  | StoredMeta.valid m => m

/-- `load_skip_record`. -/
def load_skip_record (store : SkipStore) (p : MPath) : Option LoadedRecord :=
  (lookupRow store p).map (fun row => ⟨row.reason, parse_metadata row.metadata⟩)

/-! ### Signatures and the probe -/

/-- `_matches_signature`: `metadata.get("size") == signature["size"] and
metadata.get("mtime_ns") == signature["mtime_ns"]` (a missing key gives `None`,
which never equals an integer). -/
def _matches_signature (metadata : Metadata) (signature : FileSig) : Bool :=
  decide (Metadata.get metadata "size" = some (MetaVal.int signature.size)) &&
  decide (Metadata.get metadata "mtime_ns" = some (MetaVal.int signature.mtime_ns))

/-- One subtitle stream descriptor as read by the resolver:
`str(stream.get("codec_name", "")).lower()` is taken of `codec_name`
(a missing key is the empty string, representable here). -/
structure SubStream where
  codec_name : String
  deriving DecidableEq, Repr

/-- Result of `probe_subtitle_streams`: `error` models the `CalledProcessError`
raised on a nonzero `ffprobe` exit (the call passes `check=True`). -/
inductive ProbeResult where
  | error
  | ok (streams : List SubStream)
  deriving DecidableEq, Repr

/-- The external world a resolver cycle runs against: the filesystem and the
`ffprobe` oracle (deterministic within one cycle). -/
structure World where
  fs : FS
  probe : MPath → ProbeResult

/-- `str(stream.get("codec_name", "")).lower()`. -/
def stream_codec (s : SubStream) : String :=
  lower_string s.codec_name

/-- Membership in `TEXT_BASED_SUBTITLE_CODECS`. -/
def is_text_codec (c : String) : Bool :=
  TEXT_BASED_SUBTITLE_CODECS.contains c

/-- Insertion of a string into a sorted list (helper for `sorted`). -/
def insert_sorted (x : String) : List String → List String
  | [] => [x]
  | y :: ys => if x ≤ y then x :: y :: ys else y :: insert_sorted x ys

/-- Python `sorted` on a list of strings (insertion sort). -/
def sort_strings : List String → List String
  | [] => []
  | x :: xs => insert_sorted x (sort_strings xs)

/-- Python `sorted(set(l))`. -/
def sorted_unique (l : List String) : List String :=
  sort_strings l.eraseDups

/-- `metadata = {**signature, "codecs": sorted(set(text_codecs))}`. -/
def mk_skip_metadata (signature : FileSig) (codecs : List String) : Metadata :=
  [("size", MetaVal.int signature.size),
   ("mtime_ns", MetaVal.int signature.mtime_ns),
   ("codecs", MetaVal.strList (sorted_unique codecs))]

/-! ### The disposition resolver -/

/-- Result of one `should_skip_due_to_text_subtitles` call: the returned boolean,
whether `probe_subtitle_streams` was invoked, and the table state afterwards. -/
structure ResolveResult where
  skip : Bool
  probeCalled : Bool
  store : SkipStore
  deriving Repr

/-- `should_skip_due_to_text_subtitles`, branch for branch:
stat (FileNotFoundError → `False`), cache lookup and signature check, probe
(CalledProcessError → `False`), empty-stream and codec classification, with the
store updates of each branch. -/
def should_skip_due_to_text_subtitles (w : World) (store : SkipStore) (p : MPath) :
    ResolveResult :=
  match FS.stat w.fs p with
  | none => ⟨false, false, store⟩
  | some signature =>
    let record := load_skip_record store p
    let cached_meta : Metadata :=
      match record with
      | some r => r.metadata
      | none => []
    if (!cached_meta.isEmpty) && _matches_signature cached_meta signature then
      ⟨true, false, store⟩
    else
      match w.probe p with
      | ProbeResult.error => ⟨false, true, store⟩
      | ProbeResult.ok streams =>
        if streams.isEmpty then
          ⟨false, true, if record.isSome then delete_skip_record store p else store⟩
        else
          let text_codecs := streams.filterMap (fun s =>
            if is_text_codec (stream_codec s) then some (stream_codec s) else none)
          let non_text := streams.any (fun s => !is_text_codec (stream_codec s))
          if (!text_codecs.isEmpty) && !non_text then
            ⟨true, true,
              record_skipped_file store p SKIP_REASON_TEXT
                (mk_skip_metadata signature text_codecs)⟩
          else
            ⟨false, true, if record.isSome then delete_skip_record store p else store⟩

/-- The cache-hit condition of the resolver (`cached_meta and
_matches_signature(cached_meta, signature)`), exposed for theorem statements. -/
def cache_hit (store : SkipStore) (p : MPath) (signature : FileSig) : Bool :=
  match load_skip_record store p with
  | some r => (!r.metadata.isEmpty) && _matches_signature r.metadata signature
  | none => false

/-! ### Scanner, cycle filter, cleanup -/

/-- `get_all_files`: recursive scan per allowed extension, dropping files whose raw
stem ends in one of `DISALLOWED_ENDINGS`. -/
def get_all_files (fs : FS) : List MPath :=
  ALLOWED_EXTENSIONS.flatMap (fun ext =>
    (fs.map Prod.fst).filter (fun p =>
      (decide (p.ext = ext)) && !(DISALLOWED_ENDINGS.any (fun e => ends_with p.stem e))))

/-- The Candidate Scanner as the spec words it (§4.1, claim C9): the marker filter is
applied to the *canonical name* (stem with the known suffixes stripped) instead of
the raw stem. Kept separately so it can be compared against `get_all_files`. -/
def get_all_files_speced (fs : FS) : List MPath :=
  ALLOWED_EXTENSIONS.flatMap (fun ext =>
    (fs.map Prod.fst).filter (fun p =>
      (decide (p.ext = ext)) && !(ends_with (canonical_name p.stem) ENDING)))

/-- `remove_files_if_procesed`: partition the candidate list into
(to-process, skipped), threading the skip store through the resolver calls.
The already-processed check (`processed_path.exists()`) comes first. -/
def remove_files_if_procesed (w : World) (store : SkipStore) (files : List MPath) :
    List MPath × List MPath × SkipStore :=
  match files with
  | [] => ([], [], store)
  | p :: rest =>
    if FS.exists w.fs (output_path p) then
      remove_files_if_procesed w store rest
    else
      let r := should_skip_due_to_text_subtitles w store p
      let rest_result := remove_files_if_procesed w r.store rest
      if r.skip then
        (rest_result.1, p :: rest_result.2.1, rest_result.2.2)
      else
        (p :: rest_result.1, rest_result.2.1, rest_result.2.2)

/-- `delete_transcode`: unlink the derived output artifact if it exists. -/
def delete_transcode (fs : FS) (file : MPath) : FS :=
  if FS.exists fs (output_path file) then FS.unlink fs (output_path file) else fs

/-- How the encoder run inside `process_file`'s `try` block ended: normally, by
`InterruptedError` (cancellation), `KeyboardInterrupt`, the nonzero-exit
`Exception`, or any other `BaseException`. -/
inductive RunOutcome where
  | completed
  | interrupted
  | keyboard_interrupt
  | failed (code : Int)
  | other_error
  deriving DecidableEq, Repr

/-- The filesystem effect of `process_file`'s exception handling: every non-completed
outcome runs `delete_transcode` on the job's derived output path. -/
def process_file (fs : FS) (file : MPath) (outcome : RunOutcome) : FS :=
  match outcome with
  | RunOutcome.completed => fs
  | RunOutcome.interrupted => delete_transcode fs file
  | RunOutcome.keyboard_interrupt => delete_transcode fs file
  | RunOutcome.failed _ => delete_transcode fs file
  | RunOutcome.other_error => delete_transcode fs file

/-- One iteration of `cleanup_bad_transcodes`' loop body, acting on the current
filesystem state. -/
def cleanup_step (acc : FS) (p : MPath) : FS :=
  match FS.stat acc (output_path p) with
  | some s => if s.size < 100 then FS.unlink acc (output_path p) else acc
  | none => acc

/-- `cleanup_bad_transcodes`: the startup integrity sweep. The candidate list
is computed once, then each derived output below 100 bytes is unlinked. -/
def cleanup_bad_transcodes (fs : FS) : FS :=
  (get_all_files fs).foldl cleanup_step fs

/-! ### The job supervisor (`start_ffmpeg_process`) -/

/-- Signals the supervisor's polling loop sends to the child's process group via
`os.killpg` (an attempt swallowed by `except ProcessLookupError` still counts as
the loop performing the step). -/
inductive PGSignal where
  | sigtermGroup
  | sigkillGroup
  deriving DecidableEq, Repr

/-- The supervisor's reported outcome: `InterruptedError` (cancellation), normal
return (`Completed`), or the nonzero-exit `Exception` (`Failed code`). -/
inductive Outcome where
  | Completed
  | Cancelled
  | Failed (code : Int)
  deriving DecidableEq, Repr

/-- The default of `start_ffmpeg_process`'s `termination_timeout` parameter. -/
def termination_timeout_default : Nat := 15

/-- The grace-period wait loop (`waited = 0; while waited < timeout: ...`):
`alive v` is what the `v`-th `poll()` after the group SIGTERM reports
(`true` = still running). Returns the final value of `waited`, i.e. how many
one-second sleeps were taken: the index of the first poll reporting exit,
capped at `timeout`. Fuel is `timeout - waited`. -/
def termWaitGo (alive : Nat → Bool) : Nat → Nat → Nat
  | waited, 0 => waited
  | waited, fuel + 1 => if alive waited then termWaitGo alive (waited + 1) fuel else waited

/-- The value of `waited` when the grace loop exits. -/
def termWait (alive : Nat → Bool) (timeout : Nat) : Nat :=
  termWaitGo alive 0 timeout

/-- Index of the post-loop `poll()` deciding whether to SIGKILL: a fresh poll after
a break (`termWait + 1`), or the `timeout`-th poll when the loop exhausted. -/
def final_poll_index (alive : Nat → Bool) (timeout : Nat) : Nat :=
  if termWait alive timeout < timeout then termWait alive timeout + 1 else timeout

/-- Lines 471-496 of `main.py`: what the supervisor does once it observes the
shutdown event while the child is still running — group SIGTERM, bounded polling
wait, group SIGKILL if still alive, then `raise InterruptedError` (Cancelled). -/
def start_ffmpeg_on_shutdown (alive : Nat → Bool) (timeout : Nat) :
    List PGSignal × Outcome :=
  if alive (final_poll_index alive timeout) then
    ([PGSignal.sigtermGroup, PGSignal.sigkillGroup], Outcome.Cancelled)
  else
    ([PGSignal.sigtermGroup], Outcome.Cancelled)

/-- The environment of one `start_ffmpeg_process` run: per main-loop iteration `k`
(one iteration ≈ one second, via `time.sleep(1)`), whether `shutdown_event` is set
and what `poll()` reports; the grace-wait poll results; and the child's exit code
as read from `returncode` when it exits on its own. -/
structure SupEnv where
  shutdownAt : Nat → Bool
  aliveMain : Nat → Bool
  aliveGrace : Nat → Bool
  exitCode : Int

/-- `if ret_code != 0: raise Exception(...)` — outcome of a natural exit. -/
def exit_outcome (code : Int) : Outcome :=
  if code = 0 then Outcome.Completed else Outcome.Failed code

/-- The supervisor's main polling loop (`while True:` in `start_ffmpeg_process`),
fuel-indexed; `none` means the loop was still running after `fuel` iterations. -/
def start_ffmpeg_loop (env : SupEnv) (timeout : Nat) :
    Nat → Nat → Option (List PGSignal × Outcome)
  | 0, _ => none
  | fuel + 1, k =>
    if env.shutdownAt k then
      if env.aliveMain k then
        some (start_ffmpeg_on_shutdown env.aliveGrace timeout)
      else
        some ([], exit_outcome env.exitCode)
    else if env.aliveMain k then
      start_ffmpeg_loop env timeout fuel (k + 1)
    else
      some ([], exit_outcome env.exitCode)

/-- `start_ffmpeg_process` as observed from outside: the group signals it sends and
the outcome it reports. -/
def start_ffmpeg_process (env : SupEnv) (fuel timeout : Nat) :
    Option (List PGSignal × Outcome) :=
  start_ffmpeg_loop env timeout fuel 0

/-! ### The shutdown signal handler (`handle_shutdown`) -/

/-- The `current_ffmpeg_process` handle: `running = true` iff `poll()` is `None`. -/
structure ProcHandle where
  running : Bool
  deriving DecidableEq, Repr

/-- The globals the handler touches: `shutdown_event` and `current_ffmpeg_process`. -/
structure GlobalState where
  shutdown_event : Bool
  current_ffmpeg : Option ProcHandle
  deriving DecidableEq, Repr

/-- A signal the handler itself sends to the child via the process handle
(`current_ffmpeg_process.terminate()` is a SIGTERM to the child's pid alone). -/
inductive HandlerSignal where
  | sigterm_direct
  deriving DecidableEq, Repr

/-- `handle_shutdown` (the SIGINT/SIGTERM handler): sets `shutdown_event` and, when a
handle exists whose `poll()` is `None`, calls `terminate()` on it directly. -/
def handle_shutdown (g : GlobalState) : GlobalState × List HandlerSignal :=
  (⟨true, g.current_ffmpeg⟩,
    match g.current_ffmpeg with
    | some h => if h.running then [HandlerSignal.sigterm_direct] else []
    | none => [])

/-! ### Concrete instances used by witnesses and counterexamples -/

/-- Witness file for the resolver cache-hit scenario. -/
def p_c2 : MPath := ⟨"/media", "Show", "mkv"⟩

/-- Its current signature. -/
def sig_c2 : FileSig := ⟨1000, 555⟩

/-- A cached skip row whose metadata matches `sig_c2`. -/
def row_c2 : SkipRow :=
  ⟨SKIP_REASON_TEXT,
   StoredMeta.valid
     [("size", MetaVal.int 1000), ("mtime_ns", MetaVal.int 555),
      ("codecs", MetaVal.strList ["subrip"])]⟩

/-- Store holding the cached row for `p_c2`. -/
def store_c2 : SkipStore := [(p_c2, row_c2)]

/-- World for the cache-hit witness: the probe would fail if it were ever invoked. -/
def w_c2 : World := ⟨[(p_c2, sig_c2)], fun _ => ProbeResult.error⟩

/-- Witness file for the stale-record-deletion scenario. -/
def p_c3 : MPath := ⟨"/media", "Mixed", "mkv"⟩

/-- Its current signature. -/
def sig_c3 : FileSig := ⟨10, 20⟩

/-- A stale skip row for `p_c3` (its stored signature no longer matches). -/
def store_c3 : SkipStore :=
  [(p_c3, ⟨SKIP_REASON_TEXT,
    StoredMeta.valid [("size", MetaVal.int 999), ("mtime_ns", MetaVal.int 999)]⟩)]

/-- World where inspection now finds an image-based subtitle stream (eligible). -/
def w_c3 : World := ⟨[(p_c3, sig_c3)], fun _ => ProbeResult.ok [⟨"hdmv_pgs_subtitle"⟩]⟩

/-- Witness file for the probe-failure scenario. -/
def p_c4 : MPath := ⟨"/media", "Broken", "mp4"⟩

/-- Its current signature. -/
def sig_c4 : FileSig := ⟨77, 88⟩

/-- World whose probe fails (`ffprobe` nonzero exit). -/
def w_c4 : World := ⟨[(p_c4, sig_c4)], fun _ => ProbeResult.error⟩

/-- Witness file for the cleanup-after-failure scenario. -/
def file_c5 : MPath := ⟨"/media", "Clip", "mp4"⟩

/-- Filesystem holding a partial output artifact for `file_c5`. -/
def fs_c5 : FS := [(output_path file_c5, ⟨1234, 1⟩)]

/-- Counterexample file for the vanished-file scenario. -/
def p_c6 : MPath := ⟨"/in", "Vanished", "mp4"⟩

/-- World in which `p_c6` no longer exists (empty filesystem). -/
def w_c6 : World := ⟨[], fun _ => ProbeResult.error⟩

/-- Sources for the startup-sweep scenario. -/
def src_c8a : MPath := ⟨"/media", "A", "mp4"⟩

/-- Second source for the startup-sweep scenario. -/
def src_c8b : MPath := ⟨"/media", "B", "mkv"⟩

/-- Filesystem with a 50-byte output for `src_c8a` and a 50000-byte one for `src_c8b`. -/
def fs_c8 : FS :=
  [(src_c8a, ⟨700000, 10⟩), (src_c8b, ⟨800000, 20⟩),
   (output_path src_c8a, ⟨50, 30⟩), (output_path src_c8b, ⟨50000, 40⟩)]

/-- Counterexample file for the scanner-filter claim: its raw stem does not end in
the marker, but its canonical name does. -/
def p_c9 : MPath := ⟨"/in", "Movie - Transcoded - Original", "mkv"⟩

/-- Filesystem containing only `p_c9`. -/
def fs_c9 : FS := [(p_c9, ⟨1000, 1⟩)]

/-- Witness store for the corrupt-metadata scenario: a row whose metadata column
holds unparseable JSON. -/
def p_c10 : MPath := ⟨"/media", "Corrupt", "mkv"⟩

/-- The corrupt row. -/
def row_c10 : SkipRow := ⟨SKIP_REASON_TEXT, StoredMeta.invalid⟩

/-- Store holding the corrupt row. -/
def store_c10 : SkipStore := [(p_c10, row_c10)]

/-- World for the corrupt-metadata witness: the file exists and a fresh probe finds
no subtitle streams. -/
def w_c10 : World := ⟨[(p_c10, ⟨5, 6⟩)], fun _ => ProbeResult.ok []⟩

/-- Supervisor environment for the cancellation witness: shutdown becomes visible at
main-loop iteration 2, the child stays alive in the main loop, and during the grace
wait it exits at the third poll. -/
def env_c1 : SupEnv :=
  ⟨fun j => decide (2 ≤ j), fun _ => true, fun v => decide (v < 3), 0⟩

/-! ### Helper lemmas about the store and the filesystem -/

theorem lookupRow_delete_self (store : SkipStore) (p : MPath) :
    lookupRow (delete_skip_record store p) p = none := by
  induction store with
  | nil => rfl
  | cons e rest ih =>
    obtain ⟨k, r⟩ := e
    by_cases h : k = p
    · simp [delete_skip_record, h, ih]
    · simp [delete_skip_record, lookupRow, h, ih]

theorem lookupRow_delete_other (store : SkipStore) (p q : MPath) (hqp : q ≠ p) :
    lookupRow (delete_skip_record store p) q = lookupRow store q := by
  induction store with
  | nil => rfl
  | cons e rest ih =>
    obtain ⟨k, r⟩ := e
    by_cases h : k = p
    · have hkq : ¬ k = q := by rw [h]; exact fun hpq => hqp hpq.symm
      simp [delete_skip_record, lookupRow, h, hkq, ih, Ne.symm hqp]
    · by_cases h2 : k = q <;> simp [delete_skip_record, lookupRow, h, h2, ih, hqp]

theorem FS.stat_unlink_self (fs : FS) (p : MPath) :
    FS.stat (FS.unlink fs p) p = none := by
  induction fs with
  | nil => rfl
  | cons e rest ih =>
    obtain ⟨k, s⟩ := e
    by_cases h : k = p
    · simp [FS.unlink, h, ih]
    · simp [FS.unlink, FS.stat, h, ih]

theorem FS.stat_unlink_other (fs : FS) (p q : MPath) (hqp : q ≠ p) :
    FS.stat (FS.unlink fs p) q = FS.stat fs q := by
  induction fs with
  | nil => rfl
  | cons e rest ih =>
    obtain ⟨k, s⟩ := e
    by_cases h : k = p
    · have hkq : ¬ k = q := by rw [h]; exact fun hpq => hqp hpq.symm
      simp [FS.unlink, FS.stat, h, hkq, ih, Ne.symm hqp]
    · by_cases h2 : k = q <;> simp [FS.unlink, FS.stat, h, h2, ih, hqp]

theorem matches_ne_nil (m : Metadata) (signature : FileSig)
    (h : _matches_signature m signature = true) : m.isEmpty = false := by
  cases m with
  | nil => simp [_matches_signature, Metadata.get] at h
  | cons a l => rfl

/-! ### Claim C2: a matching cached signature short-circuits inspection -/

/-- C2: if a skip record exists for a file and the record's stored metadata matches
the file's current signature (size and mtime_ns both exactly equal), the resolver
returns skip without invoking `ffprobe` and leaves the store — hence the cached
reason — untouched. -/
theorem cached_signature_match_skips_without_probe
    (w : World) (store : SkipStore) (p : MPath) (row : SkipRow) (signature : FileSig)
    (hstat : FS.stat w.fs p = some signature)
    (hrow : lookupRow store p = some row)
    (hmatch : _matches_signature (parse_metadata row.metadata) signature = true) :
    should_skip_due_to_text_subtitles w store p =
      ⟨true, false, store⟩ ∧
    (load_skip_record (should_skip_due_to_text_subtitles w store p).store p).map
      LoadedRecord.reason = some row.reason := by
  have hrec : load_skip_record store p = some ⟨row.reason, parse_metadata row.metadata⟩ := by
    simp [load_skip_record, hrow]
  have hne : (parse_metadata row.metadata).isEmpty = false :=
    matches_ne_nil _ _ hmatch
  have hmain : should_skip_due_to_text_subtitles w store p = ⟨true, false, store⟩ := by
    simp [should_skip_due_to_text_subtitles, hstat, hrec, hne, hmatch]
  refine ⟨hmain, ?_⟩
  rw [hmain]
  simp [load_skip_record, hrow]

/-- Witness for C2 at a concrete store, file and signature. -/
theorem cached_signature_match_skips_without_probe_witness :
    should_skip_due_to_text_subtitles w_c2 store_c2 p_c2 =
      ⟨true, false, store_c2⟩ ∧
    (load_skip_record (should_skip_due_to_text_subtitles w_c2 store_c2 p_c2).store p_c2).map
      LoadedRecord.reason = some row_c2.reason :=
  cached_signature_match_skips_without_probe w_c2 store_c2 p_c2 row_c2 sig_c2
    (by decide) (by decide) (by decide)

/-! ### Claim C4: probe failure fails open -/

/-- C4: when the cache does not hit and `ffprobe` fails (nonzero exit), the resolver
returns not-skip (eligible for this cycle) and writes nothing to the store; the
failure is absorbed inside the resolver (the model is total), so it is never fatal
to the control loop. -/
theorem probe_failure_fails_open
    (w : World) (store : SkipStore) (p : MPath) (signature : FileSig)
    (hstat : FS.stat w.fs p = some signature)
    (hmiss : cache_hit store p signature = false)
    (herr : w.probe p = ProbeResult.error) :
    should_skip_due_to_text_subtitles w store p = ⟨false, true, store⟩ := by
  cases hrec : load_skip_record store p with
  | none => simp [should_skip_due_to_text_subtitles, hstat, hrec, herr]
  | some r =>
    have hc : ((!r.metadata.isEmpty) && _matches_signature r.metadata signature) = false := by
      simpa [cache_hit, hrec] using hmiss
    simp [should_skip_due_to_text_subtitles, hstat, hrec, herr, hc]

/-- Witness for C4 at a concrete file with no record and a failing probe. -/
theorem probe_failure_fails_open_witness :
    should_skip_due_to_text_subtitles w_c4 [] p_c4 = ⟨false, true, []⟩ :=
  probe_failure_fails_open w_c4 [] p_c4 sig_c4 (by decide) (by decide) (by decide)

/-! ### Claim C10: corrupt or missing metadata never yields a cached skip -/

/-- C10: a persisted record whose metadata column is NULL/empty or holds unparseable
JSON loads as an empty metadata dict, which the resolver treats as a cache miss:
a fresh inspection always runs (`probeCalled` is true on every path past the cache
check), so such a record can never cause a skip without re-inspection. -/
theorem corrupt_metadata_is_cache_miss
    (w : World) (store : SkipStore) (p : MPath) (row : SkipRow) (signature : FileSig)
    (hrow : lookupRow store p = some row)
    (hbad : row.metadata = StoredMeta.empty ∨ row.metadata = StoredMeta.invalid)
    (hstat : FS.stat w.fs p = some signature) :
    load_skip_record store p = some ⟨row.reason, []⟩ ∧
    (should_skip_due_to_text_subtitles w store p).probeCalled = true := by
  have hparse : parse_metadata row.metadata = [] := by
    rcases hbad with h | h <;> simp [h, parse_metadata]
  have hrec : load_skip_record store p = some ⟨row.reason, []⟩ := by
    simp [load_skip_record, hrow, hparse]
  refine ⟨hrec, ?_⟩
  cases hpr : w.probe p with
  | error => simp [should_skip_due_to_text_subtitles, hstat, hrec, hpr]
  | ok streams =>
    by_cases hse : streams.isEmpty = true <;>
      by_cases hct : ((!(streams.filterMap (fun s =>
            if is_text_codec (stream_codec s) then some (stream_codec s) else none)).isEmpty) &&
          !streams.any fun s => !is_text_codec (stream_codec s)) = true <;>
      simp [should_skip_due_to_text_subtitles, hstat, hrec, hpr, hse, hct]

/-- Witness for C10 at a concrete store with an unparseable metadata column. -/
theorem corrupt_metadata_is_cache_miss_witness :
    load_skip_record store_c10 p_c10 = some ⟨row_c10.reason, []⟩ ∧
    (should_skip_due_to_text_subtitles w_c10 store_c10 p_c10).probeCalled = true :=
  corrupt_metadata_is_cache_miss w_c10 store_c10 p_c10 row_c10 ⟨5, 6⟩
    (by decide) (Or.inr rfl) (by decide)

/-! ### Claim C5: non-completed outcomes delete the output artifact -/

/-- C5: after any non-completed outcome of a job (cancellation, keyboard interrupt,
nonzero encoder exit, or any other error), `process_file`'s handlers delete the
artifact at the job's derived output path — afterwards no file exists there — and
touch no other path. -/
theorem noncompleted_outcome_deletes_output
    (fs : FS) (file : MPath) (outcome : RunOutcome)
    (h : outcome ≠ RunOutcome.completed) :
    FS.exists (process_file fs file outcome) (output_path file) = false ∧
    ∀ q, q ≠ output_path file →
      FS.stat (process_file fs file outcome) q = FS.stat fs q := by
  have hd : process_file fs file outcome = delete_transcode fs file := by
    cases outcome <;> simp_all [process_file]
  rw [hd]
  unfold delete_transcode
  cases hex : FS.exists fs (output_path file) with
  | false =>
    simp only [Bool.false_eq_true, if_false]
    exact ⟨hex, fun q _ => trivial⟩
  | true =>
    simp only [if_true]
    refine ⟨?_, fun q hq => FS.stat_unlink_other fs (output_path file) q hq⟩
    simp [FS.exists, FS.stat_unlink_self]

/-- Witness for C5: an interrupted job on a filesystem holding a partial output. -/
theorem noncompleted_outcome_deletes_output_witness :
    FS.exists (process_file fs_c5 file_c5 RunOutcome.interrupted) (output_path file_c5) = false ∧
    ∀ q, q ≠ output_path file_c5 →
      FS.stat (process_file fs_c5 file_c5 RunOutcome.interrupted) q = FS.stat fs_c5 q :=
  noncompleted_outcome_deletes_output fs_c5 file_c5 RunOutcome.interrupted (by decide)

/-! ### Claim C3: only ineligible classifications are persisted; stale records die -/

theorem lookupRow_record_self (store : SkipStore) (p : MPath) (reason : String) (m : Metadata) :
    lookupRow (record_skipped_file store p reason m) p = some ⟨reason, StoredMeta.valid m⟩ := by
  simp [record_skipped_file, lookupRow]

theorem skip_condition_all_text (streams : List SubStream)
    (h : ((!(streams.filterMap (fun s =>
        if is_text_codec (stream_codec s) then some (stream_codec s) else none)).isEmpty) &&
        !streams.any fun s => !is_text_codec (stream_codec s)) = true) :
    streams.all (fun s => is_text_codec (stream_codec s)) = true := by
  rw [Bool.and_eq_true] at h
  have h2 := h.2
  rw [Bool.not_eq_true'] at h2
  rw [List.all_eq_true]
  intro s hs
  by_contra hcontra
  have hany : streams.any (fun s => !is_text_codec (stream_codec s)) = true := by
    rw [List.any_eq_true]
    refine ⟨s, hs, ?_⟩
    rw [Bool.not_eq_true] at hcontra
    simp [hcontra]
  rw [h2] at hany
  cases hany

theorem all_text_skip_condition (streams : List SubStream)
    (hne : streams.isEmpty = false)
    (h : streams.all (fun s => is_text_codec (stream_codec s)) = true) :
    ((!(streams.filterMap (fun s =>
        if is_text_codec (stream_codec s) then some (stream_codec s) else none)).isEmpty) &&
        !streams.any fun s => !is_text_codec (stream_codec s)) = true := by
  rw [List.all_eq_true] at h
  rw [Bool.and_eq_true]
  constructor
  · cases streams with
    | nil => simp at hne
    | cons s rest =>
      have hs : is_text_codec (stream_codec s) = true := h s (List.mem_cons_self s rest)
      simp [List.filterMap_cons, hs]
  · rw [Bool.not_eq_true']
    rw [List.any_eq_false]
    intro s hs
    simp [h s hs]

/-- On a cache miss, the resolver is the probe-and-classify phase of the code. -/
theorem should_skip_eq_probe (w : World) (store : SkipStore) (p : MPath) (signature : FileSig)
    (hstat : FS.stat w.fs p = some signature)
    (hch : cache_hit store p signature = false) :
    should_skip_due_to_text_subtitles w store p =
      match w.probe p with
      | ProbeResult.error => ⟨false, true, store⟩
      | ProbeResult.ok streams =>
        if streams.isEmpty then
          ⟨false, true,
            if (lookupRow store p).isSome then delete_skip_record store p else store⟩
        else
          let text_codecs := streams.filterMap (fun s =>
            if is_text_codec (stream_codec s) then some (stream_codec s) else none)
          let non_text := streams.any (fun s => !is_text_codec (stream_codec s))
          if (!text_codecs.isEmpty) && !non_text then
            ⟨true, true,
              record_skipped_file store p SKIP_REASON_TEXT
                (mk_skip_metadata signature text_codecs)⟩
          else
            ⟨false, true,
              if (lookupRow store p).isSome then delete_skip_record store p else store⟩ := by
  cases hrec : lookupRow store p with
  | none => simp [should_skip_due_to_text_subtitles, hstat, load_skip_record, hrec]
  | some r0 =>
    have hc : ((!(parse_metadata r0.metadata).isEmpty) &&
        _matches_signature (parse_metadata r0.metadata) signature) = false := by
      simpa [cache_hit, load_skip_record, hrec] using hch
    simp [should_skip_due_to_text_subtitles, hstat, load_skip_record, hrec, hc]

/-- C3: (i) any record present for `p` after a resolve call is either the record that
was already there or a text-subtitle skip record written because inspection found a
non-empty, all-text-codec stream list (and then the resolver returned skip) — an
eligible disposition is never persisted; (ii) whenever inspection runs and
classifies the file as eligible (no streams, or some non-text stream), the call
ends with no record for `p` — a pre-existing stale record is deleted in that same
call — and the resolver returns eligible. -/
theorem resolver_skip_store_discipline (w : World) (store : SkipStore) (p : MPath) :
    (∀ row', lookupRow (should_skip_due_to_text_subtitles w store p).store p = some row' →
      lookupRow store p = some row' ∨
      (∃ signature streams, FS.stat w.fs p = some signature ∧
        w.probe p = ProbeResult.ok streams ∧ streams.isEmpty = false ∧
        streams.all (fun s => is_text_codec (stream_codec s)) = true ∧
        (should_skip_due_to_text_subtitles w store p).skip = true ∧
        row'.reason = SKIP_REASON_TEXT)) ∧
    (∀ signature streams, FS.stat w.fs p = some signature →
      cache_hit store p signature = false →
      w.probe p = ProbeResult.ok streams →
      (streams.isEmpty = true ∨
        streams.all (fun s => is_text_codec (stream_codec s)) = false) →
      lookupRow (should_skip_due_to_text_subtitles w store p).store p = none ∧
      (should_skip_due_to_text_subtitles w store p).skip = false) := by
  cases hstat : FS.stat w.fs p with
  | none =>
    have hres : should_skip_due_to_text_subtitles w store p = ⟨false, false, store⟩ := by
      simp [should_skip_due_to_text_subtitles, hstat]
    refine ⟨fun row' h => Or.inl (by rwa [hres] at h), ?_⟩
    intro sig strs hsig hmiss hpr2 hcls
    cases hsig
  | some signature =>
    by_cases hch : cache_hit store p signature = true
    · have hrec' : ∃ r0, lookupRow store p = some r0 := by
        cases hrec : lookupRow store p with
        | none => simp [cache_hit, load_skip_record, hrec] at hch
        | some r0 => exact ⟨r0, rfl⟩
      obtain ⟨r0, hrec⟩ := hrec'
      have hc : ((!(parse_metadata r0.metadata).isEmpty) &&
          _matches_signature (parse_metadata r0.metadata) signature) = true := by
        simpa [cache_hit, load_skip_record, hrec] using hch
      have hres : should_skip_due_to_text_subtitles w store p = ⟨true, false, store⟩ := by
        simp [should_skip_due_to_text_subtitles, hstat, load_skip_record, hrec, hc]
      refine ⟨fun row' h => Or.inl (by rwa [hres] at h), ?_⟩
      intro sig strs hsig hmiss hpr2 hcls
      injection hsig with he
      subst he
      rw [hmiss] at hch
      cases hch
    · rw [Bool.not_eq_true] at hch
      cases hpr : w.probe p with
      | error =>
        have hres : should_skip_due_to_text_subtitles w store p = ⟨false, true, store⟩ := by
          rw [should_skip_eq_probe w store p signature hstat hch]
          simp [hpr]
        refine ⟨fun row' h => Or.inl (by rwa [hres] at h), ?_⟩
        intro sig strs hsig hmiss hpr2 hcls
        cases hpr2
      | ok streams =>
        by_cases hse : streams.isEmpty = true
        · cases hrec : lookupRow store p with
          | some r0 =>
            have hres : should_skip_due_to_text_subtitles w store p =
                ⟨false, true, delete_skip_record store p⟩ := by
              rw [should_skip_eq_probe w store p signature hstat hch]
              simp [hpr, hse, hrec]
            refine ⟨?_, ?_⟩
            · intro row' h
              rw [hres] at h
              rw [lookupRow_delete_self] at h
              cases h
            · intro sig strs hsig hmiss hpr2 hcls
              rw [hres]
              exact ⟨lookupRow_delete_self store p, rfl⟩
          | none =>
            have hres : should_skip_due_to_text_subtitles w store p =
                ⟨false, true, store⟩ := by
              rw [should_skip_eq_probe w store p signature hstat hch]
              simp [hpr, hse, hrec]
            refine ⟨?_, ?_⟩
            · intro row' h
              rw [hres] at h
              have h' : lookupRow store p = some row' := h
              rw [hrec] at h'
              cases h'
            · intro sig strs hsig hmiss hpr2 hcls
              rw [hres]
              exact ⟨hrec, rfl⟩
        · have hse' : streams.isEmpty = false := by rwa [Bool.not_eq_true] at hse
          by_cases hct : ((!(streams.filterMap (fun s =>
                if is_text_codec (stream_codec s) then some (stream_codec s) else none)).isEmpty) &&
              !streams.any fun s => !is_text_codec (stream_codec s)) = true
          · have hres : should_skip_due_to_text_subtitles w store p =
                ⟨true, true,
                  record_skipped_file store p SKIP_REASON_TEXT
                    (mk_skip_metadata signature (streams.filterMap (fun s =>
                      if is_text_codec (stream_codec s) then some (stream_codec s)
                      else none)))⟩ := by
              rw [should_skip_eq_probe w store p signature hstat hch]
              simp [hpr, hse', hct]
            refine ⟨?_, ?_⟩
            · intro row' h
              rw [hres] at h
              rw [lookupRow_record_self] at h
              injection h with h'
              refine Or.inr ⟨signature, streams, rfl, rfl, hse',
                skip_condition_all_text streams hct, by rw [hres], by rw [← h']⟩
            · intro sig strs hsig hmiss hpr2 hcls
              injection hsig with he
              subst he
              injection hpr2 with he2
              subst he2
              rcases hcls with hcl | hcl
              · rw [hcl] at hse'
                cases hse'
              · have hall := skip_condition_all_text streams hct
                rw [hcl] at hall
                cases hall
          · have hct' : ((!(streams.filterMap (fun s =>
                  if is_text_codec (stream_codec s) then some (stream_codec s) else none)).isEmpty) &&
                !streams.any fun s => !is_text_codec (stream_codec s)) = false := by
              rwa [Bool.not_eq_true] at hct
            cases hrec : lookupRow store p with
            | some r0 =>
              have hres : should_skip_due_to_text_subtitles w store p =
                  ⟨false, true, delete_skip_record store p⟩ := by
                rw [should_skip_eq_probe w store p signature hstat hch]
                simp [hpr, hse', hct', hrec]
              refine ⟨?_, ?_⟩
              · intro row' h
                rw [hres] at h
                rw [lookupRow_delete_self] at h
                cases h
              · intro sig strs hsig hmiss hpr2 hcls
                rw [hres]
                exact ⟨lookupRow_delete_self store p, rfl⟩
            | none =>
              have hres : should_skip_due_to_text_subtitles w store p =
                  ⟨false, true, store⟩ := by
                rw [should_skip_eq_probe w store p signature hstat hch]
                simp [hpr, hse', hct', hrec]
              refine ⟨?_, ?_⟩
              · intro row' h
                rw [hres] at h
                have h' : lookupRow store p = some row' := h
                rw [hrec] at h'
                cases h'
              · intro sig strs hsig hmiss hpr2 hcls
                rw [hres]
                exact ⟨hrec, rfl⟩

/-- Witness for C3 (stale-record invalidation): a file with a stale skip record that
inspection now classifies as eligible ends the call with no record and not-skip. -/
theorem resolver_skip_store_discipline_witness :
    lookupRow (should_skip_due_to_text_subtitles w_c3 store_c3 p_c3).store p_c3 = none ∧
    (should_skip_due_to_text_subtitles w_c3 store_c3 p_c3).skip = false :=
  (resolver_skip_store_discipline w_c3 store_c3 p_c3).2 sig_c3 [⟨"hdmv_pgs_subtitle"⟩]
    (by decide) (by decide) rfl (Or.inr (by decide))

/-! ### Claim C6: a file that vanishes before the stat -/

/-- Counterexample to C6: a source file whose stat fails (vanished between scan and
stat) is *not* excluded from the cycle's to-process set — `remove_files_if_procesed`
places it in the to-process list, because the resolver's `FileNotFoundError` handler
returns `False` ("do not skip"). -/
theorem vanished_file_not_excluded_counterexample :
    FS.stat w_c6.fs p_c6 = none ∧
    (remove_files_if_procesed w_c6 [] [p_c6]).1 = [p_c6] ∧
    p_c6 ∈ (remove_files_if_procesed w_c6 [] [p_c6]).1 := by
  refine ⟨rfl, rfl, ?_⟩
  simp [remove_files_if_procesed, should_skip_due_to_text_subtitles, FS.stat, FS.exists,
    w_c6]

/-- C6 amended: if the source file vanishes between scan and the signature stat, the
stat failure is swallowed (no error): the resolver returns not-skip without probing
and without touching the store, so — when no output artifact exists for it — the
file remains in the current cycle's to-process list rather than being excluded; it
is re-evaluated from scratch on the next cycle's scan. -/
theorem vanished_file_fails_open (w : World) (store : SkipStore) (p : MPath)
    (rest : List MPath)
    (hstat : FS.stat w.fs p = none) :
    should_skip_due_to_text_subtitles w store p = ⟨false, false, store⟩ ∧
    (FS.exists w.fs (output_path p) = false →
      p ∈ (remove_files_if_procesed w store (p :: rest)).1) := by
  have hres : should_skip_due_to_text_subtitles w store p = ⟨false, false, store⟩ := by
    simp [should_skip_due_to_text_subtitles, hstat]
  refine ⟨hres, fun hex => ?_⟩
  simp only [remove_files_if_procesed, hex, Bool.false_eq_true, if_false, hres]
  exact List.mem_cons_self _ _

/-- Witness for the amended C6 at the concrete vanished file. -/
theorem vanished_file_fails_open_witness :
    should_skip_due_to_text_subtitles w_c6 [] p_c6 = ⟨false, false, []⟩ ∧
    (FS.exists w_c6.fs (output_path p_c6) = false →
      p_c6 ∈ (remove_files_if_procesed w_c6 [] [p_c6]).1) :=
  vanished_file_fails_open w_c6 [] p_c6 [] rfl

/-! ### Claim C7: what the shutdown signal handler does -/

/-- Counterexample to C7: when a running child handle exists, `handle_shutdown` does
not merely set the flag — it sends a SIGTERM directly to the encoder process via the
handle (`current_ffmpeg_process.terminate()`). -/
theorem handler_touches_child_counterexample :
    (handle_shutdown ⟨false, some ⟨true⟩⟩).2 = [HandlerSignal.sigterm_direct] ∧
    (handle_shutdown ⟨false, some ⟨true⟩⟩).2 ≠ [] := by
  decide

/-- C7 amended: requesting cancellation sets the shared cancellation flag and leaves
the handle in place, but in addition the handler itself sends a direct SIGTERM to
the encoder process exactly when a handle exists that still reports running; only
the group-level SIGTERM/SIGKILL escalation is left to the supervisor's polling
loop. -/
theorem handler_sets_flag_and_terminates_running_child (g : GlobalState) :
    (handle_shutdown g).1.shutdown_event = true ∧
    (handle_shutdown g).1.current_ffmpeg = g.current_ffmpeg ∧
    (HandlerSignal.sigterm_direct ∈ (handle_shutdown g).2 ↔
      ∃ h, g.current_ffmpeg = some h ∧ h.running = true) := by
  obtain ⟨ev, proc⟩ := g
  refine ⟨rfl, rfl, ?_⟩
  cases proc with
  | none => simp [handle_shutdown]
  | some h =>
    cases hr : h.running with
    | true => simp [handle_shutdown, hr]
    | false => simp [handle_shutdown, hr]

/-! ### Claim C8: the startup integrity sweep threshold -/

theorem cleanup_step_preserves_big (acc : FS) (p q : MPath) (s : FileSig)
    (hs : FS.stat acc q = some s) (hbig : ¬ s.size < 100) :
    FS.stat (cleanup_step acc p) q = some s := by
  unfold cleanup_step
  cases ho : FS.stat acc (output_path p) with
  | none => exact hs
  | some t =>
    show FS.stat (if t.size < 100 then FS.unlink acc (output_path p) else acc) q = some s
    by_cases hlt : t.size < 100
    · rw [if_pos hlt]
      by_cases hq : q = output_path p
      · subst hq
        rw [hs] at ho
        injection ho with he
        subst he
        exact absurd hlt hbig
      · rw [FS.stat_unlink_other acc _ q hq]
        exact hs
    · rw [if_neg hlt]
      exact hs

theorem cleanup_fold_preserves_big (l : List MPath) (acc : FS) (q : MPath) (s : FileSig)
    (hs : FS.stat acc q = some s) (hbig : ¬ s.size < 100) :
    FS.stat (l.foldl cleanup_step acc) q = some s := by
  induction l generalizing acc with
  | nil => exact hs
  | cons a t ih => exact ih _ (cleanup_step_preserves_big acc a q s hs hbig)

theorem cleanup_step_none (acc : FS) (p q : MPath) (h : FS.stat acc q = none) :
    FS.stat (cleanup_step acc p) q = none := by
  unfold cleanup_step
  cases ho : FS.stat acc (output_path p) with
  | none => exact h
  | some t =>
    show FS.stat (if t.size < 100 then FS.unlink acc (output_path p) else acc) q = none
    by_cases hlt : t.size < 100
    · rw [if_pos hlt]
      by_cases hq : q = output_path p
      · subst hq
        exact FS.stat_unlink_self acc _
      · rw [FS.stat_unlink_other acc _ q hq]
        exact h
    · rw [if_neg hlt]
      exact h

theorem cleanup_fold_none (l : List MPath) (acc : FS) (q : MPath)
    (h : FS.stat acc q = none) :
    FS.stat (l.foldl cleanup_step acc) q = none := by
  induction l generalizing acc with
  | nil => exact h
  | cons a t ih => exact ih _ (cleanup_step_none acc a q h)

theorem cleanup_step_small_or_gone (acc : FS) (p q : MPath)
    (h : ∀ s, FS.stat acc q = some s → s.size < 100) :
    ∀ s, FS.stat (cleanup_step acc p) q = some s → s.size < 100 := by
  intro s hs
  unfold cleanup_step at hs
  cases ho : FS.stat acc (output_path p) with
  | none =>
    rw [ho] at hs
    exact h s hs
  | some t =>
    rw [ho] at hs
    have hs' : FS.stat (if t.size < 100 then FS.unlink acc (output_path p) else acc) q
        = some s := hs
    by_cases hlt : t.size < 100
    · rw [if_pos hlt] at hs'
      by_cases hq : q = output_path p
      · subst hq
        rw [FS.stat_unlink_self] at hs'
        cases hs'
      · rw [FS.stat_unlink_other acc _ q hq] at hs'
        exact h s hs'
    · rw [if_neg hlt] at hs'
      exact h s hs' 

theorem cleanup_fold_deletes_small (l : List MPath) (acc : FS) (p : MPath)
    (hp : p ∈ l)
    (h : ∀ s, FS.stat acc (output_path p) = some s → s.size < 100) :
    FS.stat (l.foldl cleanup_step acc) (output_path p) = none := by
  induction l generalizing acc with
  | nil => cases hp
  | cons a t ih =>
    rcases List.mem_cons.mp hp with rfl | hp'
    · have hgone : FS.stat (cleanup_step acc p) (output_path p) = none := by
        unfold cleanup_step
        cases ho : FS.stat acc (output_path p) with
        | none => exact ho
        | some u =>
          have hlt : u.size < 100 := h u ho
          show FS.stat (if u.size < 100 then FS.unlink acc (output_path p) else acc)
            (output_path p) = none
          rw [if_pos hlt]
          exact FS.stat_unlink_self acc _
      exact cleanup_fold_none t _ _ hgone
    · exact ih _ hp' (cleanup_step_small_or_gone acc a (output_path p) h)

/-- C8: the startup sweep deletes the derived output artifact of every scanned
source whose output is below 100 bytes, and leaves every output at or above the
threshold untouched (same stat result afterwards). -/
theorem startup_sweep_threshold (fs : FS) (src : MPath)
    (hsrc : src ∈ get_all_files fs) :
    (∀ s, FS.stat fs (output_path src) = some s → s.size < 100 →
      FS.stat (cleanup_bad_transcodes fs) (output_path src) = none) ∧
    (∀ s, FS.stat fs (output_path src) = some s → ¬ s.size < 100 →
      FS.stat (cleanup_bad_transcodes fs) (output_path src) = some s) := by
  constructor
  · intro s hs hlt
    unfold cleanup_bad_transcodes
    refine cleanup_fold_deletes_small (get_all_files fs) fs src hsrc ?_
    intro s' hs'
    rw [hs] at hs'
    injection hs' with he
    rw [← he]
    exact hlt
  · intro s hs hbig
    exact cleanup_fold_preserves_big (get_all_files fs) fs (output_path src) s hs hbig

/-- Witness for C8: with a 50-byte and a 50000-byte output artifact, after the sweep
only the 50000-byte one remains. -/
theorem startup_sweep_threshold_witness :
    FS.stat (cleanup_bad_transcodes fs_c8) (output_path src_c8a) = none ∧
    FS.stat (cleanup_bad_transcodes fs_c8) (output_path src_c8b) = some ⟨50000, 40⟩ :=
  ⟨(startup_sweep_threshold fs_c8 src_c8a (by decide)).1 ⟨50, 30⟩ (by decide) (by decide),
   (startup_sweep_threshold fs_c8 src_c8b (by decide)).2 ⟨50000, 40⟩ (by decide)
     (by decide)⟩

/-! ### Claim C9: which files the scanner returns -/

/-- Counterexample to C9: the scanner admits a file whose *canonical name* ends in
the " - Transcoded" marker (the spec-worded scanner would reject it), because the
code filters on the raw stem instead of the canonical name. -/
theorem scanner_uses_raw_stem_counterexample :
    p_c9 ∈ get_all_files fs_c9 ∧
    ends_with (canonical_name p_c9.stem) ENDING = true ∧
    p_c9 ∉ get_all_files_speced fs_c9 := by
  decide

/-- C9 amended: the scanner returns exactly the files under the root with a
recognized extension whose *raw stem* does not end in the marker suffix; the
" - Original" suffix is not stripped before this check. -/
theorem get_all_files_mem_iff (fs : FS) (p : MPath) :
    p ∈ get_all_files fs ↔
      p ∈ fs.map Prod.fst ∧ p.ext ∈ ALLOWED_EXTENSIONS ∧
        ends_with p.stem ENDING = false := by
  unfold get_all_files
  simp only [List.mem_flatMap, List.mem_filter, Bool.and_eq_true, decide_eq_true_eq,
    Bool.not_eq_true', List.any_eq_false, DISALLOWED_ENDINGS, List.mem_singleton,
    List.any_cons, List.any_nil, Bool.or_false]
  constructor
  · rintro ⟨ext, hext, hmem, hpe, hend⟩
    exact ⟨hmem, hpe ▸ hext, hend⟩
  · rintro ⟨hmem, hext, hend⟩
    exact ⟨p.ext, hext, hmem, rfl, hend⟩

/-! ### Claim C1: the supervisor's cancellation protocol -/

theorem termWaitGo_le (alive : Nat → Bool) :
    ∀ fuel waited, termWaitGo alive waited fuel ≤ waited + fuel := by
  intro fuel
  induction fuel with
  | zero =>
    intro w
    simp [termWaitGo]
  | succ n ih =>
    intro w
    simp only [termWaitGo]
    split
    · exact le_trans (ih (w + 1)) (by omega)
    · omega

theorem termWaitGo_alive (alive : Nat → Bool) :
    ∀ fuel waited v, waited ≤ v → v < termWaitGo alive waited fuel → alive v = true := by
  intro fuel
  induction fuel with
  | zero =>
    intro w v hwv hlt
    simp only [termWaitGo] at hlt
    omega
  | succ n ih =>
    intro w v hwv hlt
    simp only [termWaitGo] at hlt
    by_cases h : alive w = true
    · rw [if_pos h] at hlt
      by_cases hv : v = w
      · rw [hv]
        exact h
      · exact ih (w + 1) v (by omega) hlt
    · rw [if_neg h] at hlt
      omega

theorem termWait_le (alive : Nat → Bool) (timeout : Nat) :
    termWait alive timeout ≤ timeout := by
  have h := termWaitGo_le alive timeout 0
  simpa [termWait] using h

theorem termWait_alive (alive : Nat → Bool) (timeout v : Nat)
    (h : v < termWait alive timeout) : alive v = true :=
  termWaitGo_alive alive timeout 0 v (Nat.zero_le v) h

theorem start_ffmpeg_loop_reach (env : SupEnv) (timeout : Nat) :
    ∀ fuel i k, i ≤ k → k - i < fuel →
      (∀ j, i ≤ j → j < k → env.shutdownAt j = false ∧ env.aliveMain j = true) →
      env.shutdownAt k = true → env.aliveMain k = true →
      start_ffmpeg_loop env timeout fuel i =
        some (start_ffmpeg_on_shutdown env.aliveGrace timeout) := by
  intro fuel
  induction fuel with
  | zero =>
    intro i k h1 h2 _ _ _
    omega
  | succ n ih =>
    intro i k hik hlt hquiet hsk hak
    by_cases hik2 : i = k
    · subst hik2
      simp [start_ffmpeg_loop, hsk, hak]
    · have hi : i < k := lt_of_le_of_ne hik hik2
      obtain ⟨hs, ha⟩ := hquiet i le_rfl hi
      simp only [start_ffmpeg_loop, hs, ha, Bool.false_eq_true, if_false, if_true]
      exact ih (i + 1) k (by omega) (by omega)
        (fun j hj1 hj2 => hquiet j (by omega) hj2) hsk hak

/-- C1: if the supervisor's polling loop observes the shutdown flag at iteration `k`
while the child still reports running (and was running, with no shutdown visible, at
every earlier poll), then it reports Cancelled; the signal sequence starts with a
group SIGTERM, the grace wait polls once per second for at most the default 15-second
grace period (every poll before the loop ends saw the child alive), and a group
SIGKILL follows exactly when the post-wait poll still reports the child alive
— the outcome is Cancelled in either case. -/
theorem supervisor_cancellation_protocol (env : SupEnv) (k fuel : Nat)
    (hk : k < fuel)
    (hquiet : ∀ j, j < k → env.shutdownAt j = false ∧ env.aliveMain j = true)
    (hs : env.shutdownAt k = true) (ha : env.aliveMain k = true) :
    start_ffmpeg_process env fuel termination_timeout_default =
      some ((if env.aliveGrace (final_poll_index env.aliveGrace termination_timeout_default)
          then [PGSignal.sigtermGroup, PGSignal.sigkillGroup]
          else [PGSignal.sigtermGroup]), Outcome.Cancelled) ∧
    termWait env.aliveGrace termination_timeout_default ≤ termination_timeout_default ∧
    (∀ v, v < termWait env.aliveGrace termination_timeout_default →
      env.aliveGrace v = true) := by
  refine ⟨?_, termWait_le env.aliveGrace termination_timeout_default,
    fun v hv => termWait_alive env.aliveGrace termination_timeout_default v hv⟩
  have hrun := start_ffmpeg_loop_reach env termination_timeout_default fuel 0 k
    (Nat.zero_le k) (by omega) (fun j _ hj => hquiet j hj) hs ha
  unfold start_ffmpeg_process
  rw [hrun]
  by_cases hgr :
      env.aliveGrace (final_poll_index env.aliveGrace termination_timeout_default) = true
  · simp [start_ffmpeg_on_shutdown, hgr]
  · simp [start_ffmpeg_on_shutdown, hgr]

/-- Witness for C1 at a concrete environment: shutdown observed at iteration 2, the
child exits at the third grace poll, so the sequence is a single group SIGTERM and
the outcome is Cancelled. -/
theorem supervisor_cancellation_protocol_witness :
    start_ffmpeg_process env_c1 4 termination_timeout_default =
      some ((if env_c1.aliveGrace (final_poll_index env_c1.aliveGrace
            termination_timeout_default)
          then [PGSignal.sigtermGroup, PGSignal.sigkillGroup]
          else [PGSignal.sigtermGroup]), Outcome.Cancelled) ∧
    termWait env_c1.aliveGrace termination_timeout_default ≤ termination_timeout_default ∧
    (∀ v, v < termWait env_c1.aliveGrace termination_timeout_default →
      env_c1.aliveGrace v = true) :=
  supervisor_cancellation_protocol env_c1 2 4 (by decide) (by decide) (by decide)
    (by decide)

/-- Witness for the amended C7 at a concrete state with a running child. -/
theorem handler_sets_flag_and_terminates_running_child_witness :
    (handle_shutdown ⟨false, some ⟨true⟩⟩).1.shutdown_event = true ∧
    (handle_shutdown ⟨false, some ⟨true⟩⟩).1.current_ffmpeg = some ⟨true⟩ ∧
    (HandlerSignal.sigterm_direct ∈ (handle_shutdown ⟨false, some ⟨true⟩⟩).2 ↔
      ∃ h, (some (⟨true⟩ : ProcHandle)) = some h ∧ h.running = true) :=
  handler_sets_flag_and_terminates_running_child ⟨false, some ⟨true⟩⟩

/-- Witness for the amended C9 at the concrete counterexample filesystem. -/
theorem get_all_files_mem_iff_witness :
    p_c9 ∈ get_all_files fs_c9 ↔
      p_c9 ∈ fs_c9.map Prod.fst ∧ p_c9.ext ∈ ALLOWED_EXTENSIONS ∧
        ends_with p_c9.stem ENDING = false :=
  get_all_files_mem_iff fs_c9 p_c9
